import Mathlib

/-!
Verification development for a desktop-automation repository consisting of two
Python modules:

* `desktop_automation.py` — a cue-driven click/keyboard tool
  (class with fields `edge_touched`, `edge_armed`, `click_history`, pause
  events, and a family of loops: `detection_and_click_loop`,
  `movement_click_loop`, `handle_assist_click`, `handle_assist_key_press`,
  `handle_periodic_key_press`, `perform_auto_sell`, plus `start`/`stop`).
* `desktop_automation_ocr.py` — an OCR-driven three-phase workflow
  (`perform_click_and_hold_phase`, `_wait_for_zero_or_full_during_hold`,
  `_contains_ocr_text`, `detect_special_items`).

The definitions below are a shallow embedding of that code.  Loops are
modelled per iteration: external observations made during an iteration
(screen samples, OCR readings, clock readings) are passed in as explicit
inputs, and the injected side effects of an iteration are returned as a
trace of primitive operations (`Op`).  Waiting on a `threading.Event` that
is cleared is modelled by returning `none` (the iteration blocks while the
signal stays closed).  Python `float` time values and coordinates are
modelled as rationals.
-/

namespace DA

/-- Keys that the tool injects (pynput `Key.left`, `Key.right`, `Key.shift`,
`Key.f8`, and plain character/string keys such as `'w'`, `'g'` or the
configured assist/secondary keys). -/
inductive MKey where
  | leftK | rightK | shiftK | f8K
  | chK (s : String)
deriving DecidableEq

/-- Primitive injected operations and synchronisation effects performed by
the loops.  `sleep d` is `time.sleep(d)`; `recover` is a call to
`perform_auto_recovery`; `webhookAlert` is `send_webhook_alert`;
`gPauseClose`/`gPauseOpen` clear/set the global pause event and
`pPauseClose`/`pPauseOpen` the secondary pause event; `joinAll` joins the
worker threads with a timeout. -/
inductive Op where
  | press (k : MKey)
  | release (k : MKey)
  | clickAt (cx cy : ℚ)
  | mouseDown
  | mouseUp
  | moveTo (cx cy : ℚ)
  | sleep (d : ℚ)
  | setInterrupt
  | clearInterrupt
  | joinAll
  | gPauseClose
  | gPauseOpen
  | pPauseClose
  | pPauseOpen
  | recover
  | webhookAlert
deriving DecidableEq

/-- An operation that injects pointer or keyboard input into the system. -/
def isInjection : Op → Bool
  | .press _ | .release _ | .clickAt _ _ | .mouseDown | .mouseUp | .moveTo _ _ => true
  | _ => false

/-! ## Configuration snapshot of `desktop_automation.py` (`self.config`) -/

/-- The numeric/boolean settings read by the loops of the first module. -/
structure ToolConfig where
  cooldown : ℚ
  move_interval : ℚ
  click_tolerance : ℚ
  require_edge_touch : Bool
  assist_click_delay : ℚ
  assist_key_delay : ℚ
  assist_key_hold : ℚ
  assist_key : String
  timed_press_interval : ℚ
  timed_press_duration : ℚ
  timed_press_direction : String
  auto_sell_interval : ℚ
deriving DecidableEq

/-! ## Edge-touch latch (`detection_and_click_loop`, lines 776-790)

The loop body reads the latest frame and, when a marker box and a target
column are both present, runs the latch/click logic.  Per tick the
externally observed conditions are: `detected` (`bar_box and target_x is
not None`), `nearEdge` (`abs(bar_left - left_marker) <= tolerance or
abs(bar_right - right_marker) <= tolerance`), and `inWindow`
(`bar_left - click_tolerance <= target_x <= bar_right + click_tolerance`). -/

structure LatchState where
  touched : Bool
  armed : Bool
deriving DecidableEq

structure LatchTick where
  detected : Bool
  nearEdge : Bool
  inWindow : Bool
deriving DecidableEq

structure LatchOut where
  st : LatchState
  fired : Bool
  clicked : Bool
deriving DecidableEq

/-- One execution of the latch-and-click block of `detection_and_click_loop`:
if the near-edge condition holds and `edge_armed` is set, latch
`edge_touched := true, edge_armed := false` (`fired`); then, when the edge
condition (or its waiver) and the click window hold, dispatch a click and
set `edge_touched := false, edge_armed := true`. -/
def latch_tick (require_edge : Bool) (s : LatchState) (tk : LatchTick) : LatchOut :=
  if !tk.detected then ⟨s, false, false⟩
  else
    let fired := tk.nearEdge && s.armed
    let s1 : LatchState := if fired then ⟨true, false⟩ else s
    let edge_condition := if require_edge then s1.touched else true
    if edge_condition && tk.inWindow then ⟨⟨false, true⟩, fired, true⟩
    else ⟨s1, fired, false⟩

/-- Folds `latch_tick` over a sequence of detection ticks, returning the
final latch state together with the number of latch firings and the number
of dispatched clicks. -/
def latch_run (require_edge : Bool) : LatchState → List LatchTick → LatchState × ℕ × ℕ
  | s, [] => (s, 0, 0)
  | s, tk :: rest =>
    let o := latch_tick require_edge s tk
    let r := latch_run require_edge o.st rest
    (r.1, (if o.fired then 1 else 0) + r.2.1, (if o.clicked then 1 else 0) + r.2.2)

/-! ## Click history (`detection_and_click_loop`, lines 791-797) -/

/-- Mirrors `self.click_history.insert(0, click_coord)` followed by
`if len(self.click_history) > 15: self.click_history.pop()`. -/
def push_click (coord : ℚ × ℚ) (h : List (ℚ × ℚ)) : List (ℚ × ℚ) :=
  let h2 := coord :: h
  if 15 < h2.length then h2.dropLast else h2

/-- The click history obtained from an empty history after the given clicks
are dispatched in order. -/
def click_history_run (clicks : List (ℚ × ℚ)) : List (ℚ × ℚ) :=
  clicks.foldl (fun h c => push_click c h) []

/-! ## Detection-and-click loop iteration (lines 734-823)

The loop waits on the global pause event at the top of every iteration
(`self.global_pause_event.wait()`), then captures a frame, runs the latch
logic and possibly clicks, and finally sleeps 0.005 s. -/

/-- One iteration of `detection_and_click_loop`.  `gOpen` is the state of
the global pause event for the duration of the iteration; a closed event
blocks the iteration entirely (`none`).  `cx, cy` is the click coordinate
`(target_x, y + h/2)` derived from the frame. -/
def detection_iter (require_edge : Bool) (gOpen : Bool) (cooldown : ℚ)
    (tk : LatchTick) (cx cy : ℚ) (s : LatchState) (hist : List (ℚ × ℚ)) :
    Option (List Op × LatchState × List (ℚ × ℚ)) :=
  if !gOpen then none
  else
    let o := latch_tick require_edge s tk
    if o.clicked then
      some ([Op.clickAt cx cy, Op.sleep cooldown, Op.sleep (1/200)], o.st,
        push_click (cx, cy) hist)
    else some ([Op.sleep (1/200)], o.st, hist)

/-! ## Movement/click loop (`movement_click_loop`, lines 677-711)

The loop body never consults the pause events: it checks only
`self.running` and `self.active`.  The inner click loops repeatedly sample
`running and not is_event_active(region)`; each sample is passed in as a
`Bool` (`true` = keep clicking). -/

/-- Runs `while <cont>: pyautogui.click(...); time.sleep(cooldown)` — the inner
click loop shared by both phases of `movement_click_loop` and by the burst
in `handle_assist_click`; `probes` are the successive loop-condition
samples. -/
def click_burst (cx cy cooldown : ℚ) : List Bool → List Op
  | [] => []
  | cont :: rest =>
    if cont then Op.clickAt cx cy :: Op.sleep cooldown :: click_burst cx cy cooldown rest
    else []

inductive MPhase where
  | start
  | postEvent
deriving DecidableEq

/-- Per-iteration external observations of `movement_click_loop`. -/
structure MoveIn where
  active : Bool
  inEvent : Bool
  clickProbes : List Bool
  waitTicks : ℕ
  timedProbes : List Bool
deriving DecidableEq

/-- One iteration of `movement_click_loop`.  `gOpen` is the ambient state of
the global pause event; the source loop never reads it, which the theorems
below make explicit.  Returns the injected trace, the next phase and the
next direction. -/
def movement_click_iter (cfg : ToolConfig) (gOpen : Bool) (cx cy : ℚ)
    (dir : MKey) (phase : MPhase) (inp : MoveIn) : List Op × MPhase × MKey :=
  if inp.active then
    match phase with
    | .start =>
      if !inp.inEvent then
        (Op.press (.chK "w") :: Op.press dir ::
          (click_burst cx cy cfg.cooldown inp.clickProbes ++
            [Op.release (.chK "w"), Op.release dir, Op.sleep cfg.cooldown]),
          .postEvent, dir)
      else ([Op.sleep cfg.cooldown], .start, dir)
    | .postEvent =>
      let dir2 := if dir = MKey.rightK then MKey.leftK else MKey.rightK
      (List.replicate inp.waitTicks (Op.sleep (1/10)) ++
        Op.press (.chK "w") :: Op.press dir2 ::
          (click_burst cx cy cfg.cooldown inp.timedProbes ++
            [Op.release (.chK "w"), Op.release dir2, Op.sleep cfg.cooldown]),
        .start, dir2)
  else ([Op.sleep cfg.cooldown], phase, dir)

/-! ## Assist loops (`handle_assist_click` lines 591-614,
`handle_assist_key_press` lines 616-644)

Both wait on the global pause event and then the secondary pause event at
the top of every iteration.  The idle-delay wait loop re-checks
`is_event_active`, `running` and the interrupt flag between 0.01 s sleeps;
`waitTicks` counts those sleeps and `waitCompleted` records whether the
wait ran to completion (Python `while ... else`). -/

/-- One iteration of `handle_assist_click`. -/
def assist_click_iter (cooldown : ℚ) (gOpen pOpen enabled eventActive : Bool)
    (waitTicks : ℕ) (waitCompleted : Bool) (probes : List Bool) (cx cy : ℚ) :
    Option (List Op) :=
  if !gOpen then none
  else if !pOpen then none
  else
    let body :=
      if enabled && !eventActive then
        List.replicate waitTicks (Op.sleep (1/100)) ++
          (if waitCompleted then click_burst cx cy cooldown probes else [])
      else []
    some (body ++ [Op.sleep (1/20)])

/-- One iteration of `handle_assist_key_press`.  `interruptSeen` records
whether either of the two interrupt-flag checks after the completed wait
observed the flag; in that case the iteration executes `continue`, skipping
both the key press and the trailing 0.05 s sleep. -/
def assist_key_iter (key : String) (keyHold : ℚ) (gOpen pOpen enabled eventActive : Bool)
    (waitTicks : ℕ) (waitCompleted interruptSeen : Bool) : Option (List Op) :=
  if !gOpen then none
  else if !pOpen then none
  else
    let waitOps := List.replicate waitTicks (Op.sleep (1/100))
    if enabled && !eventActive then
      if waitCompleted then
        if interruptSeen then some waitOps
        else some (waitOps ++
          [Op.press (.chK key), Op.sleep keyHold, Op.release (.chK key), Op.sleep (1/20)])
      else some (waitOps ++ [Op.sleep (1/20)])
    else some [Op.sleep (1/20)]

/-! ## Periodic key press (`handle_periodic_key_press`, lines 646-672) -/

/-- One iteration of `handle_periodic_key_press`.  If the feature is
disabled the handler returns before entering its loop (trace `[]`).
Otherwise the iteration waits on the secondary pause event and then on the
global pause event, sleeps `max 0 (interval - 0.5)` without re-checking
`running`, raises the interrupt flag, sleeps 0.5 s, presses the direction
key for `duration`, releases it and clears the flag. -/
def periodic_key_iter (cfg : ToolConfig) (enabled gOpen pOpen : Bool) : Option (List Op) :=
  if !enabled then some []
  else if !pOpen then none
  else if !gOpen then none
  else
    let key := if cfg.timed_press_direction.trim.map Char.toLower = "right"
      then MKey.rightK else MKey.leftK
    some [Op.sleep (max 0 (cfg.timed_press_interval - 1/2)), Op.setInterrupt,
      Op.sleep (1/2), Op.press key, Op.sleep cfg.timed_press_duration,
      Op.release key, Op.clearInterrupt]

/-! ## Privileged auto-sell sequence (`perform_auto_sell`, lines 842-882) -/

/-- One iteration of `perform_auto_sell`.  `waitOps` stands for the trace of
the inner wait-until-the-cue-stays-inactive loop (0.05 s / 0.1 s sleeps
between samples). -/
def auto_sell_iter (interval : ℚ) (waitOps : List Op) : List Op :=
  [Op.sleep (max 0 (interval - 2)), Op.pPauseClose, Op.sleep 2] ++ waitOps ++
    [Op.gPauseClose, Op.sleep 2,
      Op.press .shiftK, Op.release .shiftK, Op.sleep (1/2),
      Op.press (.chK "g"), Op.release (.chK "g"), Op.sleep (1/2),
      Op.press .f8K, Op.release .f8K, Op.sleep 2,
      Op.press (.chK "g"), Op.release (.chK "g"), Op.sleep (1/2),
      Op.press .shiftK, Op.release .shiftK, Op.sleep (1/2),
      Op.gPauseOpen, Op.pPauseOpen]

/-! ## `start` / `stop` (lines 499-548) -/

/-- The mutable fields of the tool touched by `start`/`stop`. -/
structure ToolState where
  running : Bool
  active : Bool
  edge_touched : Bool
  edge_armed : Bool
  force_interrupt : Bool
deriving DecidableEq

/-- Models `start`: returns unchanged if already running; otherwise sets `running`
and `active` (from the auto-move checkbox) and launches the threads.  It
does not touch the edge-latch fields. -/
def start_fn (auto_move : Bool) (st : ToolState) : ToolState :=
  if st.running then st
  else { st with running := true, active := auto_move }

/-- Models `stop`: clears `running` and `active`, raises the interrupt flag, joins
the threads with a timeout, clears the flag again, and force-releases keys.
The net flag effect is recorded; the edge-latch fields are untouched. -/
def stop_fn (st : ToolState) : ToolState :=
  { st with running := false, active := false, force_interrupt := false }

/-- The operation trace of `stop`: interrupt set, threads joined with
timeout, interrupt cleared, then unconditional release of `'w'`, the left
and right arrow keys, and the configured assist key. -/
def stop_ops (assist_key : String) : List Op :=
  [Op.setInterrupt, Op.joinAll, Op.clearInterrupt,
    Op.release (.chK "w"), Op.release .leftK, Op.release .rightK,
    Op.release (.chK assist_key)]

/-- Holds (as `true`) when every `sleep` in the trace lasts at most `b` seconds. -/
def sleeps_at_most (b : ℚ) (ops : List Op) : Bool :=
  ops.all fun o => match o with
    | .sleep d => decide (d ≤ b)
    | _ => true

/-! ## OCR target-x extraction (`detection_and_click_loop`, lines 764-775)

`mean_col` is `np.mean(cv2.GaussianBlur(center_band,(5,5),0), axis=0)` —
one blurred brightness mean per column of the captured region, so
`mean_col.length` is the region width.  `np.where` returns the indices in
increasing order. -/

/-- Mirrors `np.where(mean_col > mean_val + brightness_offset)[0]`. -/
def bright_indices (mean_col : List ℚ) (brightness_offset : ℚ) : List ℕ :=
  let mean_val := mean_col.sum / mean_col.length
  (List.range mean_col.length).filter
    fun i => decide (mean_val + brightness_offset < mean_col.getD i 0)

/-- Computes `target_x`: present only when more than 10 bright columns exist.
`jitter` is the sampled value of `random.uniform(-1, 1)`; `x` is
`region.left`. -/
def target_x (x : ℚ) (mean_col : List ℚ) (brightness_offset jitter : ℚ) : Option ℚ :=
  if 10 < (bright_indices mean_col brightness_offset).length then
    some (x + (((bright_indices mean_col brightness_offset).headD 0 : ℚ) +
      ((bright_indices mean_col brightness_offset).getLastD 0 : ℚ)) / 2 + jitter)
  else none

/-! ## `desktop_automation_ocr.py` — text-cue matching -/

/-- Python `str.strip` whitespace characters (ASCII). -/
def is_py_space (c : Char) : Bool :=
  c = ' ' || c = '\t' || c = '\n' || c = '\r' || c = '\x0b' || c = '\x0c'

/-- Applies `text.strip()` to a token represented as a character list. -/
def py_strip (s : List Char) : List Char :=
  ((s.dropWhile is_py_space).reverse.dropWhile is_py_space).reverse

/-- Applies `text.strip().replace(" ", "").replace("O", "0")` — the normalisation
used by `_contains_ocr_text` (lines 440-451). -/
def clean_counter_token (s : List Char) : List Char :=
  ((py_strip s).filter fun c => c != ' ').map fun c => if c = 'O' then '0' else c

/-- Mirrors `_contains_ocr_text`: the OCR reader is called with `detail=0`, so only
the recognised texts are examined — the confidence component of each
recognition (second component here) is discarded.  A match is any token
whose normalisation equals the target. -/
def contains_ocr_text (target : List Char) (results : List (List Char × ℚ)) : Bool :=
  results.any fun p => decide (clean_counter_token p.1 = target)

/-- Applies `text.lower().strip()` — the normalisation used by
`detect_special_items` (lines 517-548). -/
def clean_item_token (s : List Char) : List Char :=
  py_strip (s.map Char.toLower)

/-- The special-item keyword list. -/
def item_keywords : List (List Char) :=
  ["mythic".data, "exotic".data, "ex@tic".data, "aetherite".data]

/-- The scanning core of `detect_special_items`: the first recognition with
confidence above 0.5 whose lowercased, stripped text scores at least 75
against some keyword under `fuzz.partial_ratio` (passed in as `fuzz_score`
since it is an external library function) is returned as `found_keyword`. -/
def find_keyword_match (fuzz_score : List Char → List Char → ℚ) :
    List (List Char × ℚ) → Option (List Char)
  | [] => none
  | p :: rest =>
    if 1/2 < p.2 then
      if item_keywords.any (fun kw => decide (75 ≤ fuzz_score (clean_item_token p.1) kw))
      then some p.1
      else find_keyword_match fuzz_score rest
    else find_keyword_match fuzz_score rest

/-! ## Workflow configuration (`_collect_configuration`) -/

structure OcrConfig where
  hold_time : ℚ
  start_delay : ℚ
  between_delay : ℚ
  click_delay : ℚ
  shake_delay : ℚ
  key_hold_time : ℚ
  key1 : String
  key2 : String
  max_value : ℕ
deriving DecidableEq

/-! ## Filling phase (`perform_click_and_hold_phase`, lines 350-420)

One loop iteration makes up to seven external observations, passed in as a
`FillTick`: two reads of `stop_flag` (at the loop head and after a positive
confirmation), the pre-click full-template OCR check, the clock value
`time.time()` (the two calls within one iteration are identified), the
three confirmation OCR samples, the zero-template tracking sample, and the
post-click full-template check. -/

structure FillTick where
  stop1 : Bool
  fullPre : Bool
  t : ℚ
  c1 : Bool
  c2 : Bool
  c3 : Bool
  stop2 : Bool
  zero : Bool
  fullPost : Bool
deriving DecidableEq

/-- How one run of the Filling phase ended. -/
inductive FillExit where
  | stoppedTop
  | fullPre
  | stoppedConfirm
  | recovery
  | fullPost
  | exhausted
deriving DecidableEq

/-- The value of `perform_click_and_hold_phase`
(`should_restart, first_time_run, recovery_fail_count`) together with the
trace of injected operations and the exit path taken. -/
structure FillResult where
  should_restart : Bool
  first_time_run : Bool
  rfc : ℕ
  ops : List Op
  exit : FillExit
deriving DecidableEq

/-- Mirrors `if zero_stable_start and time.time() - zero_stable_start >= 3.0` —
note the Python float truthiness: a timestamp of exactly `0.0` is falsy. -/
def fireCheck (zss : Option ℚ) (tk : FillTick) : Bool :=
  match zss with
  | none => false
  | some t0 => decide (t0 ≠ 0) && decide (3 ≤ tk.t - t0)

/-- The outcome of one iteration of the Filling loop: either the function
returns (`exit`), or the loop continues with updated `zero_stable_start`
and `recovery_fail_count` after emitting `ops`. -/
inductive FillStepOut where
  | exit (r : FillResult)
  | next (zss : Option ℚ) (rfc : ℕ) (ops : List Op)
deriving DecidableEq

/-- The tail of the loop body: zero tracking (`zero_stable_start` is
stamped with the current time when the zero template appears and cleared
when it does not), the click-and-hold sequence, and the post-click full
check which resets `recovery_fail_count` to 0 on exit. -/
def fill_cont (cfg : OcrConfig) (zss : Option ℚ) (rfc : ℕ) (tk : FillTick) : FillStepOut :=
  let zss2 := if tk.zero then some (zss.getD tk.t) else none
  let ops := [Op.mouseDown, Op.sleep cfg.hold_time, Op.mouseUp, Op.sleep cfg.between_delay]
  if tk.fullPost then .exit ⟨false, false, 0, ops, .fullPost⟩
  else .next zss2 rfc ops

/-- One iteration of the Filling loop (`while not self.stop_flag`). -/
def fill_step (cfg : OcrConfig) (zss : Option ℚ) (rfc : ℕ) (tk : FillTick) : FillStepOut :=
  if tk.stop1 then .exit ⟨false, false, rfc, [], .stoppedTop⟩
  else if tk.fullPre then .exit ⟨false, false, rfc, [], .fullPre⟩
  else if fireCheck zss tk then
    if tk.c1 && tk.c2 && tk.c3 then
      if tk.stop2 then .exit ⟨false, false, rfc, [], .stoppedConfirm⟩
      else
        if 1 < rfc + 1 then
          .exit ⟨true, true, 0,
            [Op.recover, Op.webhookAlert, Op.press (.chK cfg.key2),
              Op.sleep (cfg.key_hold_time / 2), Op.release (.chK cfg.key2)], .recovery⟩
        else .exit ⟨true, true, rfc + 1, [Op.recover, Op.webhookAlert], .recovery⟩
    else fill_cont cfg none rfc tk
  else fill_cont cfg zss rfc tk

/-- The Filling loop over a finite trace of observations.  An exhausted
trace means the loop was still running. -/
def fill_loop (cfg : OcrConfig) : List FillTick → Option ℚ → ℕ → FillResult
  | [], _, rfc => ⟨false, false, rfc, [], .exhausted⟩
  | tk :: rest, zss, rfc =>
    match fill_step cfg zss rfc tk with
    | .exit r => r
    | .next z2 r2 ops =>
      let res := fill_loop cfg rest z2 r2
      { res with ops := ops ++ res.ops }

/-- Models `perform_click_and_hold_phase`: on the first run the startup delay is
waited out before the loop starts with `zero_stable_start = None`. -/
def fill_phase (cfg : OcrConfig) (first_time_run : Bool) (rfc : ℕ)
    (ticks : List FillTick) : FillResult :=
  let r := fill_loop cfg ticks none rfc
  if first_time_run then { r with ops := Op.sleep cfg.start_delay :: r.ops } else r

/-- Asserts `safeFrom t0 ticks`: starting from a zero reading stamped at time `t0`,
as long as the zero template keeps being read the clock stays strictly
below `t0 + 3`. -/
def safeFrom (t0 : ℚ) : List FillTick → Bool
  | [] => true
  | tk :: rest => decide (tk.t - t0 < 3) && (!tk.zero || safeFrom t0 rest)

/-- Asserts `zeroSafe ticks`: every zero reading in the trace is transient — no
consecutive stretch of zero readings spans 3 seconds or more. -/
def zeroSafe : List FillTick → Bool
  | [] => true
  | tk :: rest => (!tk.zero || safeFrom tk.t rest) && zeroSafe rest

/-! ## Destabilizing hold-wait (`_wait_for_zero_or_full_during_hold`,
lines 471-486) -/

/-- Per-iteration observations of the hold-wait loop: the `stop_flag` read
at the loop head and the zero-template OCR sample. -/
structure WTick where
  stop : Bool
  zero : Bool
deriving DecidableEq

/-- How the hold-wait loop exited. -/
inductive WExit where
  | stopped
  | zeros
deriving DecidableEq

/-- The `while not self.stop_flag` loop of
`_wait_for_zero_or_full_during_hold`: counts consecutive zero readings
(reset on a non-zero reading); on the third consecutive zero it releases
the mouse button and breaks; a raised stop flag exits without the release.
`none` when the trace ends with the loop still running. -/
def wait_zero_loop (zc : ℕ) : List WTick → Option (List Op × WExit)
  | [] => none
  | tk :: rest =>
    if tk.stop then some ([], .stopped)
    else if tk.zero then
      if 3 ≤ zc + 1 then some ([Op.mouseUp], .zeros)
      else
        match wait_zero_loop (zc + 1) rest with
        | none => none
        | some (ops, e) => some (Op.sleep (3/10) :: ops, e)
    else
      match wait_zero_loop 0 rest with
      | none => none
      | some (ops, e) => some (Op.sleep (3/10) :: ops, e)

/-- Models `_wait_for_zero_or_full_during_hold`: after the loop exits — by either
path — the shake delay is waited out and the secondary key is pressed for
`key_hold_time + 0.001` seconds, unconditionally. -/
def wait_for_zero_or_full_during_hold (cfg : OcrConfig) (ticks : List WTick) :
    Option (List Op) :=
  match wait_zero_loop 0 ticks with
  | none => none
  | some (ops, _) =>
    some (ops ++ [Op.sleep cfg.shake_delay, Op.press (.chK cfg.key2),
      Op.sleep (cfg.key_hold_time + 1/1000), Op.release (.chK cfg.key2)])

/-! ## Sample data used by witnesses and counterexamples -/

/-- A sample configuration of the first module (cooldown 0.05 s,
move interval 0.8 s, periodic press every 60 s for 1 s at direction
"right", auto-sell every 600 s). -/
def cfgT : ToolConfig :=
  ⟨1/20, 4/5, 30, true, 1/2, 1/2, 3/10, "f", 60, 1, "right", 600⟩

/-- A sample workflow configuration (hold 1 s, startup delay 2 s,
between-delay 0.5 s, click delay 0.1 s, shake delay 1.5 s, key hold 0.8 s,
keys `"e"`/`"r"`, counter maximum 50). -/
def cfgO : OcrConfig := ⟨1, 2, 1/2, 1/10, 3/2, 4/5, "e", "r", 50⟩

/-- A sample blurred column-mean profile: 12 bright columns followed by 12
dark ones in a 24-column region. -/
def mc0 : List ℚ := List.replicate 12 100 ++ List.replicate 12 0

/-- A Filling-loop observation at time 5 in which the elapsed-zero check
fires and all three confirmation samples read the zero template. -/
def tkFire : FillTick := ⟨false, false, 5, true, true, true, false, true, false⟩

/-- A Filling-loop observation at time 1 that reads the zero template. -/
def tickZero : FillTick := ⟨false, false, 1, false, false, false, false, true, false⟩

/-- A Filling trace: the zero template appears at time 1 and is still
confirmed at time 5, triggering recovery. -/
def trace1 : List FillTick := [tickZero, tkFire]

/-- A Filling trace with a transient zero reading: zero appears at time 1,
is gone by time 1.5, and the gauge is full after the click at time 2. -/
def ticksTransient : List FillTick :=
  [⟨false, false, 1, false, false, false, false, true, false⟩,
   ⟨false, false, 3/2, false, false, false, false, false, false⟩,
   ⟨false, false, 2, false, false, false, false, false, true⟩]

/-- A Filling observation in which the full template is already present at
the top of the iteration (before any click). -/
def tickFullPre : FillTick := ⟨false, true, 9, false, false, false, false, false, false⟩

/-- A Filling observation in which the full template appears only after the
click-and-hold sequence. -/
def tickFullPost : FillTick := ⟨false, false, 1, false, false, false, false, false, true⟩

/-! # Theorems -/

/-! ## Generic list lemmas -/

theorem push_click_take (c : ℚ × ℚ) (l : List (ℚ × ℚ)) :
    push_click c (l.take 15) = (c :: l).take 15 := by
  by_cases h : l.length ≤ 14
  · have h1 : l.take 15 = l := List.take_of_length_le (by omega)
    have h2 : (c :: l).take 15 = c :: l :=
      List.take_of_length_le (by simpa using by omega)
    rw [h1, h2]
    show (if 15 < (c :: l).length then (c :: l).dropLast else c :: l) = c :: l
    rw [if_neg (by simp; omega)]
  · have hlen : (l.take 15).length = 15 := by simp [List.length_take]; omega
    have hne : l.take 15 ≠ [] := by
      intro hcon; rw [hcon] at hlen; simp at hlen
    show (if 15 < (c :: l.take 15).length then (c :: l.take 15).dropLast
      else c :: l.take 15) = (c :: l).take 15
    rw [if_pos (by simp [hlen])]
    rw [List.dropLast_cons_of_ne_nil hne, List.dropLast_eq_take, hlen]
    rw [List.take_take]
    norm_num [List.take_succ_cons]

theorem click_history_foldl (cs : List (ℚ × ℚ)) :
    ∀ (acc src : List (ℚ × ℚ)), acc = src.take 15 →
      cs.foldl (fun h c => push_click c h) acc = (cs.reverse ++ src).take 15 := by
  induction cs with
  | nil => intro acc src h; simpa using h
  | cons c cs ih =>
    intro acc src h
    have hstep : push_click c acc = (c :: src).take 15 := by
      rw [h]; exact push_click_take c src
    simp only [List.foldl_cons, List.reverse_cons, List.append_assoc,
      List.singleton_append]
    exact ih _ _ hstep

/-! ## C8 — click history bound and ordering -/

/-- C8: at every point the click history holds at most 15 entries and is
ordered most-recent-first: starting from the empty history, after any
sequence of dispatched clicks the history equals the reversed click
sequence truncated to its 15 most recent entries, and a single
`push_click` keeps any history of at most 15 entries at or below 15. -/
theorem C8_click_history_bounded :
    ∀ cs : List (ℚ × ℚ),
      click_history_run cs = cs.reverse.take 15 ∧
      (click_history_run cs).length ≤ 15 ∧
      ∀ (h : List (ℚ × ℚ)) (c : ℚ × ℚ), h.length ≤ 15 →
        (push_click c h).length ≤ 15 := by
  intro cs
  have h1 : click_history_run cs = cs.reverse.take 15 := by
    have := click_history_foldl cs [] [] rfl
    simpa [click_history_run] using this
  refine ⟨h1, ?_, ?_⟩
  · rw [h1]; simp [List.length_take]
  · intro h c hh
    show (if 15 < (c :: h).length then (c :: h).dropLast else c :: h).length ≤ 15
    by_cases hc : 15 < (c :: h).length
    · rw [if_pos hc]; simp only [List.length_dropLast, List.length_cons]; omega
    · rw [if_neg hc]; simp at hc ⊢; omega

/-- Witness for C8 applied at a concrete history and click. -/
theorem C8_witness : (push_click ((3 : ℚ), (4 : ℚ)) []).length ≤ 15 :=
  (C8_click_history_bounded []).2.2 [] ((3 : ℚ), (4 : ℚ)) (by decide)

/-! ## C5 — edge-latch firing bound -/

theorem latch_tick_bound (re : Bool) (s : LatchState) (tk : LatchTick) :
    ((if (latch_tick re s tk).fired then 1 else 0) +
      (if (latch_tick re s tk).st.armed then 1 else 0) : ℕ) ≤
    (if (latch_tick re s tk).clicked then 1 else 0) +
    (if s.armed then 1 else 0) := by
  obtain ⟨t, a⟩ := s; obtain ⟨d, n, w⟩ := tk
  revert re t a d n w; decide

theorem latch_run_bound (re : Bool) :
    ∀ (ticks : List LatchTick) (s : LatchState),
      (latch_run re s ticks).2.1 + (if (latch_run re s ticks).1.armed then 1 else 0) ≤
      (latch_run re s ticks).2.2 + (if s.armed then 1 else 0) := by
  intro ticks
  induction ticks with
  | nil => intro s; simp [latch_run]
  | cons tk rest ih =>
    intro s
    have hb := latch_tick_bound re s tk
    have hr := ih (latch_tick re s tk).st
    simp only [latch_run]
    omega

/-- C5 (amended): a latch firing consumes `edge_armed` and only a
dispatched click re-arms it, so over any tick sequence the number of latch
firings is at most the number of dispatched clicks plus one; in particular
a contiguous edge-touch run during which no click is dispatched fires the
latch at most once.  (As stated, the claim fails: a click inside the run
re-arms the latch — see the counterexample.) -/
theorem C5_latch_firings_bound :
    ∀ (re : Bool) (s : LatchState) (ticks : List LatchTick),
      (latch_run re s ticks).2.1 ≤ (latch_run re s ticks).2.2 + 1 ∧
      ((latch_run re s ticks).2.2 = 0 → (latch_run re s ticks).2.1 ≤ 1) := by
  intro re s ticks
  have h := latch_run_bound re ticks s
  have h1 : (if s.armed then (1 : ℕ) else 0) ≤ 1 := by cases s.armed <;> simp
  constructor
  · omega
  · intro h0; omega

/-- C5 counterexample: two consecutive ticks of one contiguous edge-touch
run (both with the near-edge condition), each of which dispatches a click;
the latch fires on both ticks, so it fires twice within a single
contiguous edge-touch condition. -/
theorem C5_counterexample :
    (latch_run true ⟨false, true⟩
      [⟨true, true, true⟩, ⟨true, true, true⟩]).2.1 = 2 ∧
    ([(⟨true, true, true⟩ : LatchTick), ⟨true, true, true⟩].all
      fun tk => tk.nearEdge) = true := by
  decide

/-- Witness for the amended C5 at a concrete click-free run. -/
theorem C5_witness :
    (latch_run true ⟨false, true⟩ [⟨true, true, false⟩, ⟨true, true, false⟩]).2.1 ≤ 1 :=
  (C5_latch_firings_bound true ⟨false, true⟩
    [⟨true, true, false⟩, ⟨true, true, false⟩]).2 (by decide)

/-! ## C10 — latch state persists across stop/start -/

/-- C10: the edge-latch fields are initialised only at construction;
`stop` and a subsequent `start` leave them unchanged, so a new session can
begin with `edge_touched` already set and dispatch its first click without
a fresh edge-touch event (and without firing the latch). -/
theorem C10_latch_persists_across_sessions :
    ∀ (st : ToolState) (am : Bool),
      (stop_fn st).edge_touched = st.edge_touched ∧
      (stop_fn st).edge_armed = st.edge_armed ∧
      (start_fn am (stop_fn st)).edge_touched = st.edge_touched ∧
      (start_fn am (stop_fn st)).edge_armed = st.edge_armed ∧
      ∀ a : Bool,
        (latch_tick true ⟨true, a⟩ ⟨true, false, true⟩).clicked = true ∧
        (latch_tick true ⟨true, a⟩ ⟨true, false, true⟩).fired = false := by
  intro st am
  refine ⟨rfl, rfl, ?_, ?_, by decide⟩
  · simp [start_fn, stop_fn]
  · simp [start_fn, stop_fn]

/-! ## C9 — stop during the Destabilizing hold-wait -/

theorem wait_zero_loop_mouseUp :
    ∀ (ticks : List WTick) (zc : ℕ) (ops : List Op) (e : WExit),
      wait_zero_loop zc ticks = some (ops, e) → (Op.mouseUp ∈ ops ↔ e = .zeros) := by
  intro ticks
  induction ticks with
  | nil => intro zc ops e h; simp [wait_zero_loop] at h
  | cons tk rest ih =>
    intro zc ops e h
    rw [wait_zero_loop] at h
    by_cases hs : tk.stop = true
    · simp only [hs, if_true] at h
      obtain ⟨h1, h2⟩ := Prod.mk.injEq .. ▸ Option.some.inj h
      subst h1; subst h2; simp
    · simp only [hs, if_false, Bool.false_eq_true] at h
      by_cases hz : tk.zero = true
      · simp only [hz, if_true] at h
        by_cases h3 : 3 ≤ zc + 1
        · rw [if_pos h3] at h
          obtain ⟨h1, h2⟩ := Prod.mk.injEq .. ▸ Option.some.inj h
          subst h1; subst h2; simp
        · rw [if_neg h3] at h
          cases hrec : wait_zero_loop (zc + 1) rest with
          | none => rw [hrec] at h; cases h
          | some pe =>
            rw [hrec] at h
            obtain ⟨ops2, e2⟩ := pe
            obtain ⟨h1, h2⟩ := Prod.mk.injEq .. ▸ Option.some.inj h
            subst h1; subst h2
            simpa using ih (zc + 1) ops2 e2 hrec
      · simp only [hz, if_false, Bool.false_eq_true] at h
        cases hrec : wait_zero_loop 0 rest with
        | none => rw [hrec] at h; cases h
        | some pe =>
          rw [hrec] at h
          obtain ⟨ops2, e2⟩ := pe
          obtain ⟨h1, h2⟩ := Prod.mk.injEq .. ▸ Option.some.inj h
          subst h1; subst h2
          simpa using ih 0 ops2 e2 hrec

/-- C9: if the stop flag is observed during the Destabilizing hold-wait,
the loop exits without issuing a mouse-up — the mouse-up belongs only to
the three-consecutive-zeros exit — and the shake-delay wait and the
secondary-key press-and-release are still appended unconditionally after
the loop. -/
theorem C9_stop_during_hold (cfg : OcrConfig) (ticks : List WTick)
    (ops : List Op) (e : WExit)
    (h : wait_zero_loop 0 ticks = some (ops, e)) :
    (e = .stopped → Op.mouseUp ∉ ops) ∧
    (Op.mouseUp ∈ ops ↔ e = .zeros) ∧
    wait_for_zero_or_full_during_hold cfg ticks =
      some (ops ++ [Op.sleep cfg.shake_delay, Op.press (.chK cfg.key2),
        Op.sleep (cfg.key_hold_time + 1/1000), Op.release (.chK cfg.key2)]) := by
  have hiff := wait_zero_loop_mouseUp ticks 0 ops e h
  refine ⟨?_, hiff, ?_⟩
  · intro he; rw [hiff, he]; simp
  · rw [wait_for_zero_or_full_during_hold, h]

/-- Witness for C9 at a trace whose first observation reads the stop flag. -/
theorem C9_witness :
    Op.mouseUp ∉ ([] : List Op) ∧
    wait_for_zero_or_full_during_hold cfgO [⟨true, false⟩] =
      some ([] ++ [Op.sleep cfgO.shake_delay, Op.press (.chK cfgO.key2),
        Op.sleep (cfgO.key_hold_time + 1/1000), Op.release (.chK cfgO.key2)]) := by
  have h := C9_stop_during_hold cfgO [⟨true, false⟩] [] WExit.stopped (by decide)
  exact ⟨h.1 rfl, h.2.2⟩

/-! ## C1 — pause scope of the loop family -/

/-- C1 counterexample: with the global pause signal closed, an iteration of
the movement/click loop (active, no event in progress, one positive click
probe) still injects pointer and keyboard actions — the claim that no
other loop injects while GlobalPause is closed fails on the movement
loop. -/
theorem C1_counterexample :
    ((movement_click_iter cfgT false 100 200 .rightK .start
      ⟨true, false, [true, false], 0, []⟩).1.any isInjection) = true := by
  decide

/-- C1 (amended): while the global pause signal is closed, the detection,
assist-click, assist-key and periodic-key loops all block at their
top-of-iteration wait and emit nothing; the movement/click loop, however,
never consults the signal — its iteration is independent of the pause
state, so it can dispatch injected actions while GlobalPause is closed. -/
theorem C1_pause_scope :
    (∀ (re : Bool) (cd : ℚ) (tk : LatchTick) (cx cy : ℚ) (s : LatchState)
      (hist : List (ℚ × ℚ)), detection_iter re false cd tk cx cy s hist = none) ∧
    (∀ (cd : ℚ) (p en ea : Bool) (wt : ℕ) (wc : Bool) (pr : List Bool) (cx cy : ℚ),
      assist_click_iter cd false p en ea wt wc pr cx cy = none) ∧
    (∀ (k : String) (kh : ℚ) (p en ea : Bool) (wt : ℕ) (wc ir : Bool),
      assist_key_iter k kh false p en ea wt wc ir = none) ∧
    (∀ (cfg : ToolConfig) (p : Bool), periodic_key_iter cfg true false p = none) ∧
    (∀ (cfg : ToolConfig) (g g2 : Bool) (cx cy : ℚ) (dir : MKey) (ph : MPhase)
      (inp : MoveIn),
      movement_click_iter cfg g cx cy dir ph inp =
        movement_click_iter cfg g2 cx cy dir ph inp) := by
  refine ⟨fun _ _ _ _ _ _ _ => rfl, fun _ _ _ _ _ _ _ _ _ => rfl,
    fun _ _ _ _ _ _ _ _ => rfl, ?_, fun _ _ _ _ _ _ _ _ => rfl⟩
  intro cfg p
  cases p <;> rfl

/-! ## C4 — target_x stays inside the region -/

theorem bright_indices_pairwise (mc : List ℚ) (off : ℚ) :
    (bright_indices mc off).Pairwise (· < ·) := by
  simp only [bright_indices]
  exact (List.pairwise_lt_range _).sublist (List.filter_sublist _)

theorem bright_indices_lt (mc : List ℚ) (off : ℚ) :
    ∀ i ∈ bright_indices mc off, i < mc.length := by
  intro i hi
  simp only [bright_indices] at hi
  exact List.mem_range.mp (List.mem_filter.mp hi).1

theorem chain_headD_getLastD :
    ∀ (l : List ℕ), l.Pairwise (· < ·) → ∀ (d e : ℕ), l ≠ [] →
      l.headD d + l.length ≤ l.getLastD e + 1 := by
  intro l
  induction l with
  | nil => intro _ d e hne; exact absurd rfl hne
  | cons a t ih =>
    intro hp d e _
    cases t with
    | nil => simp [List.getLastD]
    | cons b t2 =>
      have hab : a < b := (List.pairwise_cons.mp hp).1 b (by simp)
      have hp2 : (b :: t2).Pairwise (· < ·) := (List.pairwise_cons.mp hp).2
      have h2 := ih hp2 d a (by simp)
      rw [List.getLastD_cons]
      simp only [List.headD_cons, List.length_cons] at *
      omega

theorem getLastD_lt_of_forall (n : ℕ) :
    ∀ (l : List ℕ) (d : ℕ), l ≠ [] → (∀ x ∈ l, x < n) → l.getLastD d < n := by
  intro l
  induction l with
  | nil => intro d hne _; exact absurd rfl hne
  | cons a t ih =>
    intro d _ hall
    cases t with
    | nil => simpa [List.getLastD] using hall a (by simp)
    | cons b t2 =>
      rw [List.getLastD_cons]
      exact ih a (by simp) fun x hx => hall x (by simp [hx])

/-- C4: whenever `target_x` is produced (more than 10 bright columns), its
value — the bright-span midpoint plus the jitter from `random.uniform(-1,1)`
— lies strictly inside `[region.left, region.left + region.width)`. -/
theorem C4_target_x_in_region (x : ℚ) (mean_col : List ℚ) (off jitter v : ℚ)
    (hj1 : -1 ≤ jitter) (hj2 : jitter ≤ 1)
    (hv : target_x x mean_col off jitter = some v) :
    x < v ∧ v < x + mean_col.length := by
  unfold target_x at hv
  split at hv
  case isFalse => exact absurd hv (by simp)
  case isTrue hlen =>
    have hval : x + (((bright_indices mean_col off).headD 0 : ℚ) +
        ((bright_indices mean_col off).getLastD 0 : ℚ)) / 2 + jitter = v :=
      Option.some.inj hv
    have hne : bright_indices mean_col off ≠ [] := by
      intro hcon; rw [hcon] at hlen; simp at hlen
    have hchain := chain_headD_getLastD (bright_indices mean_col off)
      (bright_indices_pairwise mean_col off) 0 0 hne
    have hlast : (bright_indices mean_col off).getLastD 0 < mean_col.length :=
      getLastD_lt_of_forall mean_col.length (bright_indices mean_col off) 0 hne
        (bright_indices_lt mean_col off)
    have hHG : (bright_indices mean_col off).headD 0 + 10 ≤
        (bright_indices mean_col off).getLastD 0 := by omega
    have hc1 : ((bright_indices mean_col off).headD 0 : ℚ) + 10 ≤
        ((bright_indices mean_col off).getLastD 0 : ℚ) := by exact_mod_cast hHG
    have hc2 : ((bright_indices mean_col off).getLastD 0 : ℚ) + 1 ≤
        (mean_col.length : ℚ) := by exact_mod_cast hlast
    have hc3 : (0 : ℚ) ≤ ((bright_indices mean_col off).headD 0 : ℚ) := by
      exact_mod_cast Nat.zero_le _
    constructor <;> [linarith [hval]; linarith [hval]]

theorem C4_witness_eval : bright_indices mc0 10 = [0, 1, 2, 3, 4, 5, 6, 7, 8, 9, 10, 11] := by
  have hth : mc0.sum / (mc0.length : ℚ) + 10 = 60 := by
    norm_num [mc0, List.sum_replicate]
  simp only [bright_indices, hth]
  decide

/-- Witness for C4 at a 24-column profile with 12 bright columns. -/
theorem C4_witness :
    target_x 0 mc0 10 0 = some (11/2) ∧ (0 : ℚ) < 11/2 ∧
      (11/2 : ℚ) < 0 + mc0.length := by
  have h1 : target_x 0 mc0 10 0 = some (11/2) := by
    simp only [target_x, C4_witness_eval]
    rw [if_pos (by decide)]
    norm_num
  have h2 := C4_target_x_in_region 0 mc0 10 0 (11/2) (by norm_num) (by norm_num) h1
  exact ⟨h1, h2.1, h2.2⟩

/-! ## C6 — text-cue matching -/

/-- C6 counterexample: a single recognition of the counter text with
confidence 0.1 produces a counter-template match, although no recognition
has confidence above 0.5 — `_contains_ocr_text` is called with `detail=0`
and never sees the confidence, so the claim's "only recognitions with
confidence > 0.5 are considered" is false for counter templates. -/
theorem C6_counterexample :
    contains_ocr_text ("0/50".data) [("0/50".data, 1/10)] = true ∧
    ([(("0/50".data : List Char), (1/10 : ℚ))].all
      fun p => decide (p.2 ≤ 1/2)) = true := by
  constructor
  · decide
  · show (decide ((1/10 : ℚ) ≤ 1/2) && true) = true
    rw [decide_eq_true (show (1/10 : ℚ) ≤ 1/2 by norm_num)]
    rfl

/-- C6 (amended): counter-template matching ignores confidence entirely and
matches iff some token, after stripping surrounding whitespace, removing
spaces and canonicalising `O` to `0`, equals the target exactly; item
matching considers only recognitions with confidence above 0.5, normalises
by lowercasing and stripping only, and matches iff some such token scores
at least 75 against some keyword under the fuzzy partial metric. -/
theorem C6_text_matching (target : List Char) (results : List (List Char × ℚ))
    (fz : List Char → List Char → ℚ) :
    (contains_ocr_text target results = true ↔
      ∃ p ∈ results, clean_counter_token p.1 = target) ∧
    ((find_keyword_match fz results).isSome = true ↔
      ∃ p ∈ results, 1/2 < p.2 ∧
        ∃ kw ∈ item_keywords, 75 ≤ fz (clean_item_token p.1) kw) := by
  constructor
  · simp [contains_ocr_text, List.any_eq_true]
  · induction results with
    | nil => simp [find_keyword_match]
    | cons p rest ih =>
      rw [find_keyword_match]
      by_cases hc : 1/2 < p.2
      · rw [if_pos hc]
        by_cases hk : (item_keywords.any
            fun kw => decide (75 ≤ fz (clean_item_token p.1) kw)) = true
        · rw [if_pos hk]
          simp only [List.any_eq_true, decide_eq_true_eq] at hk
          obtain ⟨kw, hkw, hscore⟩ := hk
          simp only [Option.isSome_some, true_iff]
          exact ⟨p, by simp, hc, kw, hkw, hscore⟩
        · rw [if_neg hk]
          rw [ih]
          simp only [List.any_eq_true, decide_eq_true_eq, not_exists] at hk
          constructor
          · rintro ⟨q, hq, hrest⟩; exact ⟨q, by simp [hq], hrest⟩
          · rintro ⟨q, hq, hconf, kw, hkw, hscore⟩
            rcases List.mem_cons.mp hq with rfl | hq2
            · exact (hk kw ⟨hkw, hscore⟩).elim
            · exact ⟨q, hq2, hconf, kw, hkw, hscore⟩
      · rw [if_neg hc]
        rw [ih]
        constructor
        · rintro ⟨q, hq, hrest⟩; exact ⟨q, by simp [hq], hrest⟩
        · rintro ⟨q, hq, hconf, hkw⟩
          rcases List.mem_cons.mp hq with rfl | hq2
          · exact absurd hconf hc
          · exact ⟨q, hq2, hconf, hkw⟩

/-! ## C7 — stop observation latency and forced key release -/

theorem sleeps_at_most_append (b : ℚ) (l1 l2 : List Op) :
    sleeps_at_most b (l1 ++ l2) = (sleeps_at_most b l1 && sleeps_at_most b l2) := by
  simp [sleeps_at_most, List.all_append]

theorem sleeps_at_most_replicate (b d : ℚ) (h : d ≤ b) (n : ℕ) :
    sleeps_at_most b (List.replicate n (Op.sleep d)) = true := by
  simp only [sleeps_at_most, List.all_eq_true]
  intro o ho
  rw [List.eq_of_mem_replicate ho]
  exact decide_eq_true h

theorem sleeps_at_most_click_burst (cx cy cd b : ℚ) (h : cd ≤ b) :
    ∀ pr : List Bool, sleeps_at_most b (click_burst cx cy cd pr) = true := by
  intro pr
  induction pr with
  | nil => rfl
  | cons c rest ih =>
    rw [click_burst]
    by_cases hc : c = true
    · rw [if_pos hc]
      simp only [sleeps_at_most, List.all_cons] at ih ⊢
      simp [ih, decide_eq_true h]
    · rw [if_neg hc]; rfl

theorem sleeps_at_most_iff (b : ℚ) (ops : List Op) :
    sleeps_at_most b ops = true ↔ ∀ d : ℚ, Op.sleep d ∈ ops → d ≤ b := by
  simp only [sleeps_at_most, List.all_eq_true]
  constructor
  · intro h d hd
    simpa using h _ hd
  · intro h o ho
    cases o <;> try rfl
    case sleep d => exact decide_eq_true (h d ho)

theorem mem_click_burst_sleep (cx cy cd d : ℚ) :
    ∀ pr : List Bool, Op.sleep d ∈ click_burst cx cy cd pr → d = cd := by
  intro pr
  induction pr with
  | nil => intro h; simp [click_burst] at h
  | cons c rest ih =>
    intro h
    rw [click_burst] at h
    by_cases hc : c = true
    · rw [if_pos hc] at h
      rcases List.mem_cons.mp h with h | h
      · exact absurd h (by simp)
      · rcases List.mem_cons.mp h with h | h
        · exact Op.sleep.inj h
        · exact ih h
    · rw [if_neg hc] at h; simp at h

/-- C7 counterexample: with the default periodic-press interval of 60 s the
periodic-key loop's iteration contains a 59.5 s sleep with no re-check of
the running flag, so the claim that every loop re-checks `running` at
intervals of at most 100 ms fails. -/
theorem C7_counterexample :
    (periodic_key_iter cfgT true true true).isSome = true ∧
    sleeps_at_most (1/10) ((periodic_key_iter cfgT true true true).getD []) = false := by
  constructor
  · rfl
  · show (decide (max 0 ((60 : ℚ) - 1/2) ≤ 1/10) && _) = false
    rw [decide_eq_false (show ¬(max 0 ((60 : ℚ) - 1/2) ≤ 1/10) by norm_num)]
    rfl

/-- C7 (amended): the assist-click and assist-key loops sleep at most
`max cooldown 0.05` s (resp. `max keyHold 0.05` s) between re-checks, but
the periodic-key loop sleeps `max 0 (interval − 0.5)` s and the auto-sell
loop `max 0 (interval − 2)` s without re-checking `running`, so the stop is
not observed within 100 ms in general; after `stop` joins the threads with
a timeout it unconditionally force-releases `'w'`, the left and right
arrow keys and the configured assist key. -/
theorem C7_stop_observation :
    (∀ (cd : ℚ) (g p en ea : Bool) (wt : ℕ) (wc : Bool) (pr : List Bool) (cx cy : ℚ),
      sleeps_at_most (max cd (1/20))
        ((assist_click_iter cd g p en ea wt wc pr cx cy).getD []) = true) ∧
    (∀ (k : String) (kh : ℚ) (g p en ea : Bool) (wt : ℕ) (wc ir : Bool),
      sleeps_at_most (max kh (1/20))
        ((assist_key_iter k kh g p en ea wt wc ir).getD []) = true) ∧
    (∀ cfg : ToolConfig,
      Op.sleep (max 0 (cfg.timed_press_interval - 1/2)) ∈
        (periodic_key_iter cfg true true true).getD []) ∧
    (∀ (iv : ℚ) (w : List Op), Op.sleep (max 0 (iv - 2)) ∈ auto_sell_iter iv w) ∧
    (∀ k : String, stop_ops k = [Op.setInterrupt, Op.joinAll, Op.clearInterrupt,
      Op.release (.chK "w"), Op.release .leftK, Op.release .rightK,
      Op.release (.chK k)]) := by
  refine ⟨?_, ?_, ?_, ?_, fun _ => rfl⟩
  · intro cd g p en ea wt wc pr cx cy
    rw [sleeps_at_most_iff]
    intro d hd
    cases g with
    | false => simp [assist_click_iter] at hd
    | true =>
      cases p with
      | false => simp [assist_click_iter] at hd
      | true =>
        by_cases he : (en && !ea) = true
        · by_cases hw : wc = true
          · simp only [assist_click_iter, Bool.not_true, Bool.false_eq_true,
              if_false, he, if_true, hw, Option.getD_some, List.mem_append,
              List.mem_replicate, List.mem_singleton, Op.sleep.injEq] at hd
            rcases hd with (⟨-, rfl⟩ | hb) | rfl
            · exact le_trans (by norm_num) (le_max_right cd (1/20 : ℚ))
            · exact (mem_click_burst_sleep cx cy cd d pr hb).le.trans
                (le_max_left cd (1/20 : ℚ))
            · exact le_max_right cd (1/20 : ℚ)
          · simp only [assist_click_iter, Bool.not_true, Bool.false_eq_true,
              if_false, he, if_true, hw, Option.getD_some, List.mem_append,
              List.mem_replicate, List.mem_singleton, List.append_nil,
              Op.sleep.injEq] at hd
            rcases hd with ⟨-, rfl⟩ | rfl
            · exact le_trans (by norm_num) (le_max_right cd (1/20 : ℚ))
            · exact le_max_right cd (1/20 : ℚ)
        · simp only [assist_click_iter, Bool.not_true, Bool.false_eq_true,
            if_false, he, Option.getD_some, List.nil_append,
            List.mem_singleton, Op.sleep.injEq] at hd
          rw [hd]
          exact le_max_right cd (1/20 : ℚ)
  · intro k kh g p en ea wt wc ir
    rw [sleeps_at_most_iff]
    intro d hd
    cases g with
    | false => simp [assist_key_iter] at hd
    | true =>
      cases p with
      | false => simp [assist_key_iter] at hd
      | true =>
        have hsmall : (1/100 : ℚ) ≤ max kh (1/20) :=
          le_trans (by norm_num) (le_max_right kh (1/20 : ℚ))
        have htiny : (1/20 : ℚ) ≤ max kh (1/20) := le_max_right kh (1/20 : ℚ)
        by_cases he : (en && !ea) = true
        · by_cases hw : wc = true
          · by_cases hi : ir = true
            · simp only [assist_key_iter, Bool.not_true, Bool.false_eq_true,
                if_false, he, if_true, hw, hi, Option.getD_some,
                List.mem_replicate, Op.sleep.injEq] at hd
              rw [hd.2]; exact hsmall
            · simp only [assist_key_iter, Bool.not_true, Bool.false_eq_true,
                if_false, he, if_true, hw, hi, Option.getD_some,
                List.mem_append, List.mem_replicate, List.mem_cons,
                List.not_mem_nil, or_false, Op.sleep.injEq] at hd
              rcases hd with ⟨-, h1⟩ | h | heq | h | h2
              · rw [h1]; exact hsmall
              · exact absurd h (by simp)
              · exact heq.le.trans (le_max_left kh (1/20 : ℚ))
              · exact absurd h (by simp)
              · rw [h2]; exact htiny
          · simp only [assist_key_iter, Bool.not_true, Bool.false_eq_true,
              if_false, he, if_true, hw, Option.getD_some, List.mem_append,
              List.mem_replicate, List.mem_singleton, Op.sleep.injEq] at hd
            rcases hd with ⟨-, h1⟩ | h2
            · rw [h1]; exact hsmall
            · rw [h2]; exact htiny
        · simp only [assist_key_iter, Bool.not_true, Bool.false_eq_true,
            if_false, he, Option.getD_some, List.mem_singleton,
            Op.sleep.injEq] at hd
          rw [hd]
          exact htiny
  · intro cfg; simp [periodic_key_iter]
  · intro iv w; simp [auto_sell_iter]

/-! ## C2 / C3 — Filling-phase stuck detection and the recovery counter -/

theorem fill_cont_not_recovery (cfg : OcrConfig) (zss : Option ℚ) (rfc : ℕ)
    (tk : FillTick) (r : FillResult) (h : fill_cont cfg zss rfc tk = .exit r) :
    r.exit ≠ .recovery := by
  simp only [fill_cont] at h
  split at h
  · injection h with h
    rw [← h]
    simp
  · exact FillStepOut.noConfusion h

theorem fill_step_recovery_iff (cfg : OcrConfig) (zss : Option ℚ) (rfc : ℕ)
    (tk : FillTick) (h1 : tk.stop1 = false) (h2 : tk.fullPre = false)
    (h3 : tk.stop2 = false) (hpos : ∀ t0, zss = some t0 → 0 < t0) :
    (∃ r, fill_step cfg zss rfc tk = .exit r ∧ r.exit = .recovery) ↔
      ((∃ t0, zss = some t0 ∧ 3 ≤ tk.t - t0) ∧ (tk.c1 && tk.c2 && tk.c3) = true) := by
  have hnr : ∀ (z : Option ℚ) (q : ℕ),
      ¬ ∃ r, fill_cont cfg z q tk = .exit r ∧ r.exit = .recovery := by
    rintro z q ⟨r, hr, hrec⟩
    exact fill_cont_not_recovery cfg z q tk r hr hrec
  have hs1 : ¬(tk.stop1 = true) := by simp [h1]
  have hs2 : ¬(tk.fullPre = true) := by simp [h2]
  have hs3 : ¬(tk.stop2 = true) := by simp [h3]
  cases zss with
  | none =>
    have hstep : fill_step cfg none rfc tk = fill_cont cfg none rfc tk := by
      unfold fill_step
      rw [if_neg hs1, if_neg hs2,
        if_neg (show ¬(fireCheck none tk = true) by simp [fireCheck])]
    rw [hstep]
    constructor
    · intro hex; exact absurd hex (hnr none rfc)
    · rintro ⟨⟨t0, ht0, -⟩, -⟩; cases ht0
  | some t0 =>
    have ht0 : 0 < t0 := hpos t0 rfl
    have hfc : fireCheck (some t0) tk = decide (3 ≤ tk.t - t0) := by
      simp [fireCheck, ne_of_gt ht0]
    by_cases h3le : 3 ≤ tk.t - t0
    · by_cases hcf : (tk.c1 && tk.c2 && tk.c3) = true
      · have hstep : fill_step cfg (some t0) rfc tk =
            (if 1 < rfc + 1 then
              FillStepOut.exit ⟨true, true, 0,
                [Op.recover, Op.webhookAlert, Op.press (.chK cfg.key2),
                  Op.sleep (cfg.key_hold_time / 2), Op.release (.chK cfg.key2)],
                .recovery⟩
            else FillStepOut.exit ⟨true, true, rfc + 1,
              [Op.recover, Op.webhookAlert], .recovery⟩) := by
          unfold fill_step
          rw [if_neg hs1, if_neg hs2, hfc, if_pos (decide_eq_true h3le),
            if_pos hcf, if_neg hs3]
        rw [hstep]
        constructor
        · intro _; exact ⟨⟨t0, rfl, h3le⟩, hcf⟩
        · intro _
          by_cases hrfc : 1 < rfc + 1
          · rw [if_pos hrfc]; exact ⟨_, rfl, rfl⟩
          · rw [if_neg hrfc]; exact ⟨_, rfl, rfl⟩
      · have hstep : fill_step cfg (some t0) rfc tk = fill_cont cfg none rfc tk := by
          unfold fill_step
          rw [if_neg hs1, if_neg hs2, hfc, if_pos (decide_eq_true h3le), if_neg hcf]
        rw [hstep]
        constructor
        · intro hex; exact absurd hex (hnr none rfc)
        · rintro ⟨-, hc⟩; exact absurd hc hcf
    · have hstep : fill_step cfg (some t0) rfc tk = fill_cont cfg (some t0) rfc tk := by
        unfold fill_step
        rw [if_neg hs1, if_neg hs2, hfc,
          if_neg (show ¬(decide (3 ≤ tk.t - t0) = true) by simp [h3le])]
      rw [hstep]
      constructor
      · intro hex; exact absurd hex (hnr (some t0) rfc)
      · rintro ⟨⟨t0', ht0', h3le'⟩, -⟩
        injection ht0' with he
        subst he
        exact absurd h3le' h3le

theorem fill_step_recovery_effects (cfg : OcrConfig) (zss : Option ℚ) (rfc : ℕ)
    (tk : FillTick) (r : FillResult)
    (h : fill_step cfg zss rfc tk = .exit r) (hrec : r.exit = .recovery) :
    r.should_restart = true ∧ r.first_time_run = true ∧
    r.rfc = (if 1 < rfc + 1 then 0 else rfc + 1) ∧
    r.ops = [Op.recover, Op.webhookAlert] ++
      (if 1 < rfc + 1 then [Op.press (.chK cfg.key2), Op.sleep (cfg.key_hold_time / 2),
        Op.release (.chK cfg.key2)] else []) := by
  unfold fill_step at h
  by_cases hst : tk.stop1 = true
  · rw [if_pos hst] at h
    injection h with h
    rw [← h] at hrec
    exact absurd hrec (by simp)
  rw [if_neg hst] at h
  by_cases hfp : tk.fullPre = true
  · rw [if_pos hfp] at h
    injection h with h
    rw [← h] at hrec
    exact absurd hrec (by simp)
  rw [if_neg hfp] at h
  by_cases hfc : fireCheck zss tk = true
  case neg =>
    rw [if_neg hfc] at h
    exact absurd hrec (fill_cont_not_recovery cfg zss rfc tk r h)
  rw [if_pos hfc] at h
  by_cases hcf : (tk.c1 && tk.c2 && tk.c3) = true
  case neg =>
    rw [if_neg hcf] at h
    exact absurd hrec (fill_cont_not_recovery cfg none rfc tk r h)
  rw [if_pos hcf] at h
  by_cases hs2 : tk.stop2 = true
  · rw [if_pos hs2] at h
    injection h with h
    rw [← h] at hrec
    exact absurd hrec (by simp)
  rw [if_neg hs2] at h
  by_cases hrfc : 1 < rfc + 1
  · rw [if_pos hrfc] at h
    injection h with h
    rw [← h, if_pos hrfc, if_pos hrfc]
    simp
  · rw [if_neg hrfc] at h
    injection h with h
    rw [← h, if_neg hrfc, if_neg hrfc]
    simp

theorem fill_loop_safe (cfg : OcrConfig) :
    ∀ (ticks : List FillTick) (zss : Option ℚ) (rfc : ℕ),
      zeroSafe ticks = true →
      (∀ t0, zss = some t0 → safeFrom t0 ticks = true) →
      (fill_loop cfg ticks zss rfc).exit ≠ .recovery := by
  intro ticks
  induction ticks with
  | nil =>
    intro zss rfc _ _
    simp [fill_loop]
  | cons tk rest ih =>
    intro zss rfc hsafe hz
    rw [zeroSafe, Bool.and_eq_true] at hsafe
    obtain ⟨hhead, hrest⟩ := hsafe
    have hznew : tk.zero = true → safeFrom tk.t rest = true := by
      intro hzr
      rw [Bool.or_eq_true] at hhead
      rcases hhead with h | h
      · rw [hzr] at h; exact absurd h (by simp)
      · exact h
    have hfire : fireCheck zss tk = false := by
      cases zss with
      | none => rfl
      | some t0 =>
        have hsf := hz t0 rfl
        rw [safeFrom, Bool.and_eq_true] at hsf
        have hlt : tk.t - t0 < 3 := of_decide_eq_true hsf.1
        simp [fireCheck, not_le.mpr hlt]
    rw [fill_loop]
    by_cases hst : tk.stop1 = true
    · have hstep : fill_step cfg zss rfc tk =
          .exit ⟨false, false, rfc, [], .stoppedTop⟩ := by
        unfold fill_step; rw [if_pos hst]
      rw [hstep]; simp
    · by_cases hfp : tk.fullPre = true
      · have hstep : fill_step cfg zss rfc tk =
            .exit ⟨false, false, rfc, [], .fullPre⟩ := by
          unfold fill_step; rw [if_neg hst, if_pos hfp]
        rw [hstep]; simp
      · have hstep : fill_step cfg zss rfc tk = fill_cont cfg zss rfc tk := by
          unfold fill_step
          rw [if_neg hst, if_neg hfp, if_neg (show ¬(fireCheck zss tk = true) by simp [hfire])]
        rw [hstep]
        by_cases hfo : tk.fullPost = true
        · have hcont : fill_cont cfg zss rfc tk = .exit ⟨false, false, 0,
              [Op.mouseDown, Op.sleep cfg.hold_time, Op.mouseUp,
                Op.sleep cfg.between_delay], .fullPost⟩ := by
            simp only [fill_cont]
            rw [if_pos hfo]
          rw [hcont]; simp
        · have hcont : fill_cont cfg zss rfc tk =
              .next (if tk.zero then some (zss.getD tk.t) else none) rfc
                [Op.mouseDown, Op.sleep cfg.hold_time, Op.mouseUp,
                  Op.sleep cfg.between_delay] := by
            simp only [fill_cont]
            rw [if_neg hfo]
          rw [hcont]
          have hinv : ∀ t0, (if tk.zero then some (zss.getD tk.t) else none) = some t0 →
              safeFrom t0 rest = true := by
            intro t0 ht0
            by_cases hzr : tk.zero = true
            · rw [if_pos hzr] at ht0
              injection ht0 with he
              cases zss with
              | none =>
                rw [← he]
                exact hznew hzr
              | some t1 =>
                have hsf := hz t1 rfl
                rw [safeFrom, Bool.and_eq_true, Bool.or_eq_true] at hsf
                rcases hsf.2 with h | h
                · rw [hzr] at h; exact absurd h (by simp)
                · rw [← he]; exact h
            · rw [if_neg hzr] at ht0; cases ht0
          exact ih (if tk.zero then some (zss.getD tk.t) else none) rfc hrest hinv

/-- C2: in the Filling phase (no stop request, full template absent), the
stuck-recovery branch fires at a loop iteration if and only if the
zero-template stamp `zero_stable_start` is at least 3 seconds old and all
three confirmation samples match; on firing, the recovery counter is
incremented — and, if it thereby exceeds 1, the secondary key is pressed
for half the configured hold duration and the counter is reset to 0 — and
the phase requests a restart with `first_time_run = true`, which re-applies
the startup delay; moreover the stamp is only ever as old as an unbroken
run of zero readings, so a trace in which no consecutive stretch of zero
readings spans 3 seconds (e.g. a transient 0.5 s zero) never triggers
recovery. -/
theorem C2_stuck_detection :
    (∀ (cfg : OcrConfig) (zss : Option ℚ) (rfc : ℕ) (tk : FillTick),
      tk.stop1 = false → tk.fullPre = false → tk.stop2 = false →
      (∀ t0, zss = some t0 → 0 < t0) →
      ((∃ r, fill_step cfg zss rfc tk = .exit r ∧ r.exit = .recovery) ↔
        ((∃ t0, zss = some t0 ∧ 3 ≤ tk.t - t0) ∧ (tk.c1 && tk.c2 && tk.c3) = true))) ∧
    (∀ (cfg : OcrConfig) (zss : Option ℚ) (rfc : ℕ) (tk : FillTick) (r : FillResult),
      fill_step cfg zss rfc tk = .exit r → r.exit = .recovery →
      r.should_restart = true ∧ r.first_time_run = true ∧
      r.rfc = (if 1 < rfc + 1 then 0 else rfc + 1) ∧
      r.ops = [Op.recover, Op.webhookAlert] ++
        (if 1 < rfc + 1 then [Op.press (.chK cfg.key2), Op.sleep (cfg.key_hold_time / 2),
          Op.release (.chK cfg.key2)] else [])) ∧
    (∀ (cfg : OcrConfig) (rfc : ℕ) (ticks : List FillTick),
      (fill_phase cfg true rfc ticks).ops.head? = some (Op.sleep cfg.start_delay)) ∧
    (∀ (cfg : OcrConfig) (rfc : ℕ) (ticks : List FillTick),
      zeroSafe ticks = true → (fill_loop cfg ticks none rfc).exit ≠ .recovery) := by
  refine ⟨?_, ?_, ?_, ?_⟩
  · intro cfg zss rfc tk h1 h2 h3 hpos
    exact fill_step_recovery_iff cfg zss rfc tk h1 h2 h3 hpos
  · intro cfg zss rfc tk r h hrec
    exact fill_step_recovery_effects cfg zss rfc tk r h hrec
  · intro cfg rfc ticks
    simp [fill_phase]
  · intro cfg rfc ticks h
    exact fill_loop_safe cfg ticks none rfc h (fun t0 ht0 => Option.noConfusion ht0)

/-- Witness for C2: a concrete firing iteration (zero stamped at time 1,
check at time 5, three positive confirmations) and a concrete transient
trace that never triggers recovery. -/
theorem C2_witness :
    (∃ r, fill_step cfgO (some 1) 0 tkFire = FillStepOut.exit r ∧
      r.exit = FillExit.recovery) ∧
    (fill_loop cfgO ticksTransient none 0).exit ≠ FillExit.recovery := by
  constructor
  · refine (C2_stuck_detection.1 cfgO (some 1) 0 tkFire rfl rfl rfl ?_).mpr
      ⟨⟨1, rfl, ?_⟩, rfl⟩
    · intro t0 h
      injection h with h2
      rw [← h2]
      norm_num
    · norm_num [tkFire]
  · refine C2_stuck_detection.2.2.2 cfgO 0 ticksTransient ?_
    have e1 : (3 : ℚ) / 2 - 1 < 3 := by norm_num
    simp [zeroSafe, safeFrom, ticksTransient, e1]

theorem fill_step_cases (cfg : OcrConfig) (zss : Option ℚ) (rfc : ℕ) (tk : FillTick) :
    (∃ z2 ops, fill_step cfg zss rfc tk = .next z2 rfc ops) ∨
    (∃ r, fill_step cfg zss rfc tk = .exit r ∧
      (r.exit = .fullPost → r.rfc = 0) ∧ (r.exit = .fullPre → r.rfc = rfc)) := by
  simp only [fill_step, fill_cont]
  split_ifs <;>
    first
      | exact Or.inl ⟨_, _, rfl⟩
      | exact Or.inr ⟨_, rfl, by simp, by simp⟩

/-- C3 (amended): the recovery counter is reset to 0 only by the
post-click full check; a Filling run that exits because the full template
is already present at the top of an iteration returns the counter
unchanged — so after a single earlier recovery (counter 1) such an exit
leaves the counter at 1, not 0. -/
theorem C3_rfc_after_fill :
    ∀ (cfg : OcrConfig) (ticks : List FillTick) (zss : Option ℚ) (rfc : ℕ),
      ((fill_loop cfg ticks zss rfc).exit = .fullPost →
        (fill_loop cfg ticks zss rfc).rfc = 0) ∧
      ((fill_loop cfg ticks zss rfc).exit = .fullPre →
        (fill_loop cfg ticks zss rfc).rfc = rfc) := by
  intro cfg ticks
  induction ticks with
  | nil =>
    intro zss rfc
    constructor <;> (intro h; simp [fill_loop] at h)
  | cons tk rest ih =>
    intro zss rfc
    rcases fill_step_cases cfg zss rfc tk with ⟨z2, ops, hs⟩ | ⟨r, hs, hp1, hp2⟩
    · have heq : fill_loop cfg (tk :: rest) zss rfc =
          { fill_loop cfg rest z2 rfc with
            ops := ops ++ (fill_loop cfg rest z2 rfc).ops } := by
        rw [fill_loop, hs]
      rw [heq]
      exact ⟨fun h => (ih z2 rfc).1 h, fun h => (ih z2 rfc).2 h⟩
    · have heq : fill_loop cfg (tk :: rest) zss rfc = r := by
        rw [fill_loop, hs]
      rw [heq]
      exact ⟨hp1, hp2⟩

theorem fill_phase_proj (cfg : OcrConfig) (f : Bool) (rfc : ℕ) (ticks : List FillTick) :
    (fill_phase cfg f rfc ticks).should_restart =
      (fill_loop cfg ticks none rfc).should_restart ∧
    (fill_phase cfg f rfc ticks).first_time_run =
      (fill_loop cfg ticks none rfc).first_time_run ∧
    (fill_phase cfg f rfc ticks).rfc = (fill_loop cfg ticks none rfc).rfc ∧
    (fill_phase cfg f rfc ticks).exit = (fill_loop cfg ticks none rfc).exit := by
  cases f <;> simp [fill_phase]

/-- C3 counterexample: a first Filling run triggers one recovery and
restarts with the counter at 1; the next Filling run finds the full
template already present at the top of its first iteration and exits
without invoking recovery — yet the counter is still 1 afterwards, not 0
as the claim requires. -/
theorem C3_counterexample :
    (fill_phase cfgO true 0 trace1).should_restart = true ∧
    (fill_phase cfgO true 0 trace1).first_time_run = true ∧
    (fill_phase cfgO true 0 trace1).rfc = 1 ∧
    (fill_phase cfgO true 1 [tickFullPre]).exit = FillExit.fullPre ∧
    (fill_phase cfgO true 1 [tickFullPre]).ops.countP
      (fun o => decide (o = Op.recover)) = 0 ∧
    (fill_phase cfgO true 1 [tickFullPre]).rfc = 1 := by
  have hfire : fireCheck (some 1) tkFire = true := by
    have h4 : (3 : ℚ) ≤ tkFire.t - 1 := by norm_num [tkFire]
    simp [fireCheck, h4]
  have h1 : fill_step cfgO none 0 tickZero = FillStepOut.next (some 1) 0
      [Op.mouseDown, Op.sleep cfgO.hold_time, Op.mouseUp,
        Op.sleep cfgO.between_delay] := by
    simp [fill_step, fill_cont, fireCheck, tickZero]
  have h2 : fill_step cfgO (some 1) 0 tkFire = FillStepOut.exit
      ⟨true, true, 1, [Op.recover, Op.webhookAlert], FillExit.recovery⟩ := by
    unfold fill_step
    rw [if_neg (by simp [tkFire]), if_neg (by simp [tkFire]), if_pos hfire,
      if_pos (by simp [tkFire]), if_neg (by simp [tkFire]), if_neg (by norm_num)]
  have h3a : fill_loop cfgO [tkFire] (some 1) 0 =
      ⟨true, true, 1, [Op.recover, Op.webhookAlert], FillExit.recovery⟩ := by
    rw [fill_loop, h2]
  have h3 : fill_loop cfgO trace1 none 0 = ⟨true, true, 1,
      [Op.mouseDown, Op.sleep cfgO.hold_time, Op.mouseUp, Op.sleep cfgO.between_delay,
        Op.recover, Op.webhookAlert], FillExit.recovery⟩ := by
    have hm : fill_loop cfgO (tickZero :: [tkFire]) none 0 =
        { fill_loop cfgO [tkFire] (some 1) 0 with
          ops := [Op.mouseDown, Op.sleep cfgO.hold_time, Op.mouseUp,
            Op.sleep cfgO.between_delay] ++ (fill_loop cfgO [tkFire] (some 1) 0).ops } := by
      rw [fill_loop, h1]
    show fill_loop cfgO (tickZero :: [tkFire]) none 0 = _
    rw [hm, h3a]
    rfl
  have h5 : fill_loop cfgO [tickFullPre] none 1 =
      ⟨false, false, 1, [], FillExit.fullPre⟩ := by
    have hstep : fill_step cfgO none 1 tickFullPre =
        FillStepOut.exit ⟨false, false, 1, [], FillExit.fullPre⟩ := by
      unfold fill_step
      rw [if_neg (by simp [tickFullPre]), if_pos (by simp [tickFullPre])]
    rw [fill_loop, hstep]
  have h6 : (fill_phase cfgO true 1 [tickFullPre]).ops = [Op.sleep cfgO.start_delay] := by
    simp [fill_phase, h5]
  obtain ⟨p1, p2, p3, -⟩ := fill_phase_proj cfgO true 0 trace1
  obtain ⟨-, -, q3, q4⟩ := fill_phase_proj cfgO true 1 [tickFullPre]
  refine ⟨?_, ?_, ?_, ?_, ?_, ?_⟩
  · rw [p1, h3]
  · rw [p2, h3]
  · rw [p3, h3]
  · rw [q4, h5]
  · rw [h6]; rfl
  · rw [q3, h5]

/-- Witness for the amended C3: a run exiting through the post-click full
check returns counter 0, and a run exiting through the pre-click full
check returns the counter it was given. -/
theorem C3_witness :
    (fill_loop cfgO [tickFullPost] none 3).rfc = 0 ∧
    (fill_loop cfgO [tickFullPre] none 3).rfc = 3 := by
  constructor
  · exact (C3_rfc_after_fill cfgO [tickFullPost] none 3).1 (by decide)
  · exact (C3_rfc_after_fill cfgO [tickFullPre] none 3).2 (by decide)

end DA
